import Mathlib

/-!
Shallow embedding of the go-loadbalancer repository (weighted round-robin load
balancer plus retrying HTTP dispatcher) and proofs about its specification.

Conventions of the embedding:
* Go time.Time and time.Duration are modeled as integers (Instant); the Go
  call now.After(t) is the strict comparison now > t.
* Go machine integers are modeled as Int (they stay far from overflow here).
* Mutation under the balancer mutex is modeled as explicit state passing on a
  LoadBalancer value; each operation returns the new state together with the
  list of events the Go code raises after releasing the lock.
* The unbounded for-loops inside LoadBalancer.Next are modeled with explicit
  fuel (list length plus two); a lemma below shows this fuel always suffices
  on well-formed states, so the model never exercises the exhaustion branch
  on states the API can reach.
-/

/-- Time instants and durations, in arbitrary integer units. -/
abbrev Instant := Int

/-- Mirrors ServerOptions from src/server.go. -/
structure ServerOptions where
  Weight : Int
  MaxFails : Int
  FailTimeout : Int
  IsBackup : Bool
  deriving DecidableEq, Repr

/-- Mirrors Server from src/server.go (the lb back-reference is implicit in
the state passing; userData is modeled as an opaque numeric payload). -/
structure Server where
  opts : ServerOptions
  index : Nat
  isDown : Bool
  failCounter : Int
  failTimestamp : Instant
  userData : Nat
  deriving DecidableEq, Repr

/-- Mirrors ServerGroup from src/server.go. -/
structure ServerGroup where
  srvList : List Server
  currServerIdx : Nat
  currServerWeight : Int
  deriving DecidableEq, Repr

/-- Mirrors LoadBalancer from src/loadbalancer.go (the mutex and the event
handler are not part of the value state). -/
structure LoadBalancer where
  primaryGroup : ServerGroup
  backupGroup : ServerGroup
  primaryOnlineCount : Int
  deriving DecidableEq, Repr

/-- A reference to a server: which group it lives in and its index there.
This models the *Server pointers the Go API hands out. -/
structure SRef where
  inBackup : Bool
  idx : Nat
  deriving DecidableEq, Repr

/-- Events raised through the event handler (ServerUpEvent / ServerDownEvent). -/
inductive Event where
  | up (r : SRef)
  | down (r : SRef)
  deriving DecidableEq, Repr

/-- Mirrors Create from src/loadbalancer.go (the balancer value only; the
side effect on a package global is modeled separately for the frame claim). -/
def LoadBalancer.Create : LoadBalancer :=
  { primaryGroup := ⟨[], 0, 0⟩, backupGroup := ⟨[], 0, 0⟩, primaryOnlineCount := 0 }

/-- Mirrors LoadBalancer.Add from src/loadbalancer.go: option validation,
weight normalization, clearing of the fail fields, and append to the proper
group (a new primary counts as online). -/
def LoadBalancer.Add (lb : LoadBalancer) (opts : ServerOptions) (ud : Nat) :
    Except String LoadBalancer :=
  if opts.Weight < 0 then .error "invalid parameter"
  else if ¬opts.IsBackup ∧ 0 < opts.MaxFails ∧ opts.FailTimeout ≤ 0 then
    .error "invalid parameter"
  else if ¬opts.IsBackup ∧ opts.MaxFails < 0 then .error "invalid parameter"
  else
    let o1 := if opts.Weight = 0 then { opts with Weight := 1 } else opts
    let o2 := if opts.IsBackup ∨ o1.MaxFails = 0 then
        { o1 with MaxFails := 0, FailTimeout := 0 } else o1
    if opts.IsBackup then
      .ok { lb with backupGroup := { lb.backupGroup with
        srvList := lb.backupGroup.srvList ++
          [⟨o2, lb.backupGroup.srvList.length, false, 0, 0, ud⟩] } }
    else
      .ok { lb with
        primaryGroup := { lb.primaryGroup with
          srvList := lb.primaryGroup.srvList ++
            [⟨o2, lb.primaryGroup.srvList.length, false, 0, 0, ud⟩] },
        primaryOnlineCount := lb.primaryOnlineCount + 1 }

/-- Dereference an SRef in the current state. -/
def LoadBalancer.getSrv (lb : LoadBalancer) (r : SRef) : Option Server :=
  if r.inBackup then lb.backupGroup.srvList.get? r.idx
  else lb.primaryGroup.srvList.get? r.idx

/-- Write back a server value through an SRef. -/
def LoadBalancer.setSrv (lb : LoadBalancer) (r : SRef) (s : Server) : LoadBalancer :=
  if r.inBackup then
    { lb with backupGroup := { lb.backupGroup with
        srvList := lb.backupGroup.srvList.set r.idx s } }
  else
    { lb with primaryGroup := { lb.primaryGroup with
        srvList := lb.primaryGroup.srvList.set r.idx s } }

/-- Adjust primaryOnlineCount by a delta. -/
def LoadBalancer.bumpCount (lb : LoadBalancer) (d : Int) : LoadBalancer :=
  { lb with primaryOnlineCount := lb.primaryOnlineCount + d }

/-- Mirrors Server.SetOnline from src/server.go: no-op for backups or
maxFails 0; otherwise reset the failure counter and, if the server was down,
put it back up, bump the online count and raise an up event. -/
def LoadBalancer.SetOnline (lb : LoadBalancer) (r : SRef) : LoadBalancer × List Event :=
  match lb.getSrv r with
  | none => (lb, [])
  | some srv =>
    if srv.opts.MaxFails = 0 ∨ srv.opts.IsBackup then (lb, [])
    else
      let srv1 := { srv with failCounter := 0 }
      if srv1.isDown then
        ((lb.setSrv r { srv1 with isDown := false }).bumpCount 1, [.up r])
      else (lb.setSrv r srv1, [])

/-- Mirrors Server.SetOffline from src/server.go: no-op for backups,
maxFails 0, already-down servers, or a counter already at maxFails.
Otherwise increment the counter; on the first failure anchor the window at
now + failTimeout; on later failures past the window reset the counter to 1
(the Go code leaves failTimestamp untouched in that branch); when the
counter reaches maxFails, mark the server down with re-admit time
now + failTimeout, decrement the online count and raise a down event. -/
def LoadBalancer.SetOffline (lb : LoadBalancer) (now : Instant) (r : SRef) :
    LoadBalancer × List Event :=
  match lb.getSrv r with
  | none => (lb, [])
  | some srv =>
    if srv.opts.MaxFails = 0 ∨ srv.opts.IsBackup then (lb, [])
    else if srv.isDown = false ∧ srv.failCounter < srv.opts.MaxFails then
      let c1 := srv.failCounter + 1
      let st1 : Int × Instant :=
        if c1 = 1 then (c1, now + srv.opts.FailTimeout)
        else if now > srv.failTimestamp then (1, srv.failTimestamp)
        else (c1, srv.failTimestamp)
      if st1.1 = srv.opts.MaxFails then
        ((lb.setSrv r { srv with
            isDown := true,
            failCounter := st1.1,
            failTimestamp := now + srv.opts.FailTimeout }).bumpCount (-1), [.down r])
      else
        (lb.setSrv r { srv with failCounter := st1.1, failTimestamp := st1.2 }, [])
    else (lb, [])

/-- The body of the recovery sweep in LoadBalancer.Next: a server whose
failTimestamp has passed is put back up with its counter cleared. -/
def reviveIfPast (now : Instant) (s : Server) : Server :=
  if now > s.failTimestamp then { s with isDown := false, failCounter := 0 } else s

/-- The recovery sweep loop of LoadBalancer.Next, carrying the index of the
current element so the up events identify their server. Returns the new
list, the number of count increments, and the events in index order. -/
def sweepFrom (now : Instant) : Nat → List Server → List Server × Int × List Event
  | _, [] => ([], 0, [])
  | i, s :: rest =>
    let r := sweepFrom now (i + 1) rest
    if now > s.failTimestamp then
      ({ s with isDown := false, failCounter := 0 } :: r.1, r.2.1 + 1,
        Event.up ⟨false, i⟩ :: r.2.2)
    else (s :: r.1, r.2.1, r.2.2)

/-- The recovery sweep of LoadBalancer.Next (runs when primaryOnlineCount
is zero). -/
def LoadBalancer.sweep (now : Instant) (lb : LoadBalancer) : LoadBalancer × List Event :=
  let r := sweepFrom now 0 lb.primaryGroup.srvList
  ({ lb with
      primaryGroup := { lb.primaryGroup with srvList := r.1 },
      primaryOnlineCount := lb.primaryOnlineCount + r.2.1 }, r.2.2)

/-- The state threaded through the primary selection loop of Next. -/
structure WalkState where
  g : ServerGroup
  count : Int
  evs : List Event
  deriving DecidableEq, Repr

/-- The primary selection loop of LoadBalancer.Next. The Go loop only exits
by selecting a server; the fuel models that: on well-formed states the fuel
passed by Next is proven sufficient. Each iteration may revive the inspected
server in place (without clearing its failure counter), selects it when it
is up and still has weight budget, and otherwise advances the cursor. -/
def primWalkBody (now : Instant) (recur : WalkState → WalkState × Option Nat)
    (st : WalkState) : WalkState × Option Nat :=
  match st.g.srvList.get? st.g.currServerIdx with
  | none => (st, none)
  | some srv0 =>
    if srv0.isDown = true ∧ now > srv0.failTimestamp then
      -- The revived server has isDown = false, so the Go selection test
      -- reduces to the weight comparison.
      if st.g.currServerWeight < srv0.opts.Weight then
        (⟨{ st.g with
              srvList := st.g.srvList.set st.g.currServerIdx
                { srv0 with isDown := false },
              currServerWeight := st.g.currServerWeight + 1 },
            st.count + 1, st.evs ++ [Event.up ⟨false, st.g.currServerIdx⟩]⟩,
          some st.g.currServerIdx)
      else
        recur ⟨{ st.g with
            srvList := st.g.srvList.set st.g.currServerIdx
              { srv0 with isDown := false },
            currServerIdx := if st.g.currServerIdx + 1 ≥ st.g.srvList.length then 0
              else st.g.currServerIdx + 1,
            currServerWeight := 0 },
          st.count + 1, st.evs ++ [Event.up ⟨false, st.g.currServerIdx⟩]⟩
    else if srv0.isDown = false ∧ st.g.currServerWeight < srv0.opts.Weight then
      (⟨{ st.g with currServerWeight := st.g.currServerWeight + 1 },
        st.count, st.evs⟩, some st.g.currServerIdx)
    else
      recur ⟨{ st.g with
          currServerIdx := if st.g.currServerIdx + 1 ≥ st.g.srvList.length then 0
            else st.g.currServerIdx + 1,
          currServerWeight := 0 },
        st.count, st.evs⟩

def primWalk (now : Instant) : Nat → WalkState → WalkState × Option Nat
  | 0, st => (st, none)
  | fuel + 1, st => primWalkBody now (primWalk now fuel) st

/-- The backup selection loop of LoadBalancer.Next (no down tracking). -/
def backupWalkBody (recur : ServerGroup → ServerGroup × Option Nat)
    (g : ServerGroup) : ServerGroup × Option Nat :=
  match g.srvList.get? g.currServerIdx with
  | none => (g, none)
  | some srv =>
    if g.currServerWeight < srv.opts.Weight then
      ({ g with currServerWeight := g.currServerWeight + 1 }, some g.currServerIdx)
    else
      recur { g with
        currServerIdx := if g.currServerIdx + 1 ≥ g.srvList.length then 0
          else g.currServerIdx + 1,
        currServerWeight := 0 }

def backupWalk : Nat → ServerGroup → ServerGroup × Option Nat
  | 0, g => (g, none)
  | fuel + 1, g => backupWalkBody (backupWalk fuel) g

/-- First stage of LoadBalancer.Next: run the recovery sweep when every
primary is offline. -/
def LoadBalancer.nextSweep (lb : LoadBalancer) (now : Instant) :
    LoadBalancer × List Event :=
  if lb.primaryOnlineCount = 0 then lb.sweep now else (lb, [])

/-- Second stage of LoadBalancer.Next: the weighted round-robin walk over
the primaries, entered only when some primary is online. -/
def LoadBalancer.nextPrimary (lb1 : LoadBalancer) (now : Instant) :
    LoadBalancer × List Event × Option SRef :=
  if 0 < lb1.primaryOnlineCount then
    let r := primWalk now (lb1.primaryGroup.srvList.length + 2)
      ⟨lb1.primaryGroup, lb1.primaryOnlineCount, []⟩
    ({ lb1 with primaryGroup := r.1.g, primaryOnlineCount := r.1.count }, r.1.evs,
      r.2.map (fun i => SRef.mk false i))
  else (lb1, [], none)

/-- Third stage of LoadBalancer.Next: the backup fallback, entered only
when no primary was selected and the backup list is non-empty. -/
def LoadBalancer.nextBackup (lb2 : LoadBalancer) : LoadBalancer × Option SRef :=
  if 0 < lb2.backupGroup.srvList.length then
    let r := backupWalk (lb2.backupGroup.srvList.length + 2) lb2.backupGroup
    ({ lb2 with backupGroup := r.1 }, r.2.map (fun i => SRef.mk true i))
  else (lb2, none)

/-- Mirrors LoadBalancer.Next from src/loadbalancer.go: recovery sweep when
every primary is offline, then the weighted round-robin walk over primaries,
then the backup fallback. Returns the new state, the up events in the order
the Go code fires them, and the selected server if any. -/
def LoadBalancer.Next (lb : LoadBalancer) (now : Instant) :
    LoadBalancer × List Event × Option SRef :=
  let sw := lb.nextSweep now
  let ph := sw.1.nextPrimary now
  match ph.2.2 with
  | some r => (ph.1, sw.2 ++ ph.2.1, some r)
  | none =>
    let bk := ph.1.nextBackup
    (bk.1, sw.2 ++ ph.2.1, bk.2)

/-- One API operation against the balancer, for reasoning about arbitrary
finite call sequences. -/
inductive Op where
  | add (opts : ServerOptions) (ud : Nat)
  | next (now : Instant)
  | setOnline (r : SRef)
  | setOffline (now : Instant) (r : SRef)
  deriving DecidableEq, Repr

/-- Apply one operation, discarding events and validation errors (a rejected
Add leaves the state untouched, as in the Go code). -/
def applyOp (lb : LoadBalancer) : Op → LoadBalancer
  | .add opts ud =>
    match lb.Add opts ud with
    | .ok lb2 => lb2
    | .error _ => lb
  | .next now => (lb.Next now).1
  | .setOnline r => (lb.SetOnline r).1
  | .setOffline now r => (lb.SetOffline now r).1

/-- Apply a sequence of operations starting from a given state. -/
def applyOps (lb : LoadBalancer) (ops : List Op) : LoadBalancer :=
  ops.foldl applyOp lb

/-- Number of servers in a list that are not down. -/
def onlineCountOf (l : List Server) : Int :=
  ((l.filter fun s => !s.isDown).length : Int)

/-- The count invariant: primaryOnlineCount equals the number of primary
servers with isDown = false. -/
def CountInv (lb : LoadBalancer) : Prop :=
  lb.primaryOnlineCount = onlineCountOf lb.primaryGroup.srvList

/-- Every server stored in the backup group has maxFails 0 (Add forces
this), so SetOnline and SetOffline are no-ops on backups. -/
def BackupSafe (lb : LoadBalancer) : Prop :=
  ∀ s ∈ lb.backupGroup.srvList, s.opts.MaxFails = 0

/-- Selections of n consecutive Next calls (no other operation in between). -/
def nextSelections (now : Instant) : Nat → LoadBalancer → List (Option SRef)
  | 0, _ => []
  | n + 1, lb =>
    let r := lb.Next now
    r.2.2 :: nextSelections now n r.1

/-- The test harness pattern of the repository tests: each Next call is
followed by SetOnline on the returned server. Returns the selections. -/
def runNextSetOnline (now : Instant) : Nat → LoadBalancer → List (Option SRef)
  | 0, _ => []
  | n + 1, lb =>
    let r := lb.Next now
    let lb2 := match r.2.2 with
      | some ref => ((r.1).SetOnline ref).1
      | none => r.1
    r.2.2 :: runNextSetOnline now n lb2

/-- The two-primary setup of the concrete weighted round-robin scenario:
server A with weight 5, server B with weight 2, both with maxFails 3. -/
def lbAB : LoadBalancer :=
  applyOps LoadBalancer.Create
    [.add ⟨5, 3, 5, false⟩ 1, .add ⟨2, 3, 1, false⟩ 2]

/-- A single primary server with weight 1 and maxFails 1. -/
def lbOne : LoadBalancer :=
  applyOps LoadBalancer.Create [.add ⟨1, 1, 10, false⟩ 1]

/-- Two primary servers with weight 1 and maxFails 1. -/
def lbTwo : LoadBalancer :=
  applyOps LoadBalancer.Create [.add ⟨1, 1, 10, false⟩ 1, .add ⟨1, 1, 10, false⟩ 2]

/-- One primary server that is down with failTimestamp 100. -/
def lbDown : LoadBalancer :=
  ⟨⟨[⟨⟨1, 1, 10, false⟩, 0, true, 1, 100, 1⟩], 0, 0⟩, ⟨[], 0, 0⟩, 0⟩

/-- One primary up server with failCounter 1 inside an expired window:
its first failure happened at time 0 with failTimeout 10. -/
def lbC3 : LoadBalancer :=
  ⟨⟨[⟨⟨1, 3, 10, false⟩, 0, false, 1, 10, 1⟩], 0, 0⟩, ⟨[], 0, 0⟩, 1⟩

/-!
## HTTP client layer (src/httpclient)

The dispatcher is modeled per request: the transport and the user callback
are external, so one retry attempt is driven by a script entry describing
the transport outcome and the callback behavior for that iteration.
-/

/-- Errors the dispatcher can produce: the two sentinels, a structured
error (newError with its message), and an unclassified error returned by
the callback. -/
inductive HErr where
  | errTimeout
  | errCanceled
  | structured (msg : String)
  | cbOther (code : Nat)
  deriving DecidableEq, Repr

/-- Outcome of client.Do in one attempt. Each constructor stands for a Go
error value falling into the corresponding (first matching) branch of the
classification chain in HttpClient.exec, src/httpclient/exec.go lines
136-154; ok means an HTTP response was received (any status). -/
inductive DoResult where
  | ok
  | deadlineExceeded
  | netTimeout
  | canceled
  | otherErr (code : Nat)
  deriving DecidableEq, Repr

/-- The error value the user callback returns, by the classification the
dispatcher applies to it afterwards. -/
inductive CbErr where
  | noErr
  | deadline
  | netTimeout
  | canceled
  | other (code : Nat)
  deriving DecidableEq, Repr

/-- Behavior of one iteration of the retry loop: the transport outcome and
what the callback does (the two out-signals and its returned error). -/
structure Attempt where
  doResult : DoResult
  cbSetOffline : Bool
  cbSetRetry : Bool
  cbRet : CbErr
  deriving DecidableEq, Repr

def errUnableToExecuteRequest : String := "failed to execute http request"

def errNoAvailableServer : String := "no available upstream server"

/-- The transport-error classification chain of HttpClient.exec
(src/httpclient/exec.go lines 136-154): the classified error together with
whether that branch calls srv.SetOffline (before the callback runs). -/
def classifyDo : DoResult → Option HErr × Bool
  | .ok => (none, false)
  | .deadlineExceeded => (some .errTimeout, false)
  | .netTimeout => (some .errTimeout, true)
  | .canceled => (some .errCanceled, false)
  | .otherErr _ => (some (.structured errUnableToExecuteRequest), true)

/-- Reclassification of the callback return value (src/httpclient/exec.go
lines 160-169). -/
def classifyCb : CbErr → Option HErr
  | .noErr => none
  | .deadline => some .errTimeout
  | .netTimeout => some .errTimeout
  | .canceled => some .errCanceled
  | .other code => some (.cbOther code)

/-- The pre-callback portion of one attempt: classify the transport outcome
and apply SetOffline when the branch demands it. -/
def execAttemptPre (now : Instant) (lb : LoadBalancer) (srv : SRef) (d : DoResult) :
    LoadBalancer × Option HErr :=
  let c := classifyDo d
  (if c.2 then (lb.SetOffline now srv).1 else lb, c.1)

/-- One full attempt of the retry loop on a selected server: pre-callback
classification, callback invocation, the post-callback SetOnline or
SetOffline depending on the upstreamOffline signal, and the retry signal.
The value the loop keeps as err is the reclassified callback return. -/
def execAttempt (now : Instant) (lb : LoadBalancer) (srv : SRef) (a : Attempt) :
    LoadBalancer × Option HErr × Bool :=
  let pre := execAttemptPre now lb srv a.doResult
  let err2 := classifyCb a.cbRet
  let lb2 := if a.cbSetOffline then ((pre.1).SetOffline now srv).1
    else ((pre.1).SetOnline srv).1
  (lb2, err2, a.cbSetRetry)

/-- The retry loop of HttpClient.exec (src/httpclient/exec.go lines 77-199).
Every iteration calls balancer Next first; a nil server returns the
structured no-available-upstream error at once. The script supplies the
behavior of transport and callback per iteration; the result carries the
final error, the total number of Next calls performed, and the final
balancer state. none means the script was exhausted while the callback kept
requesting retries. -/
def execLoop (now : Instant) : List Attempt → LoadBalancer → Nat →
    Option (Option HErr × Nat × LoadBalancer)
  | [], _, _ => none
  | a :: rest, lb, calls =>
    let n := lb.Next now
    match n.2.2 with
    | none => some (some (.structured errNoAvailableServer), calls + 1, n.1)
    | some srv =>
      let r := execAttempt now n.1 srv a
      if r.2.2 then execLoop now rest r.1 (calls + 1)
      else some (r.2.1, calls + 1, r.1)

/-- The request body argument by dynamic type, as the switch at the top of
HttpClient.exec (src/httpclient/exec.go lines 27-71) sees it: the absent
body, the three accepted re-readable reader types, and a catch-all for
every other io.Reader. Byte content is a list of byte values; the readers
carry their data and current read offset. -/
inductive BodyReader where
  | noBody
  | bytesBuffer (unread : List Nat)
  | bytesReader (data : List Nat) (off : Nat)
  | stringsReader (data : List Nat) (off : Nat)
  | otherReader (data : List Nat) (off : Nat)
  deriving DecidableEq, Repr

/-- A fresh reader handed to one attempt: content and read position. -/
structure FreshReader where
  data : List Nat
  pos : Nat
  deriving DecidableEq, Repr

/-- The bytes a full read of the reader yields. -/
def FreshReader.readAll (r : FreshReader) : List Nat := r.data.drop r.pos

/-- The body getter set up by HttpClient.exec: for a nil body the getter
returns no reader; for bytes.Buffer the unread bytes are captured once and
every call returns a new reader over them; for bytes.Reader and
strings.Reader a snapshot of the reader value is copied on every call; any
other reader type is rejected. The getter takes the attempt number (the Go
closure ignores which attempt calls it). -/
def setupGetBody : BodyReader → Except String (Nat → Option FreshReader)
  | .noBody => .ok fun _ => none
  | .bytesBuffer unread => .ok fun _ => some ⟨unread, 0⟩
  | .bytesReader data off => .ok fun _ => some ⟨data, off⟩
  | .stringsReader data off => .ok fun _ => some ⟨data, off⟩
  | .otherReader _ _ => .error "unsupported body reader"

/-- The byte content the body still holds when Exec is called. -/
def bodyBytes : BodyReader → List Nat
  | .noBody => []
  | .bytesBuffer unread => unread
  | .bytesReader data off => data.drop off
  | .stringsReader data off => data.drop off
  | .otherReader data off => data.drop off

/-- The fields of Request from src/httpclient/request.go that Exec
validates, plus the body. The callback is modeled by its presence; its
behavior lives in the attempt script. -/
structure Request where
  method : String
  url : String
  timeout : Int
  hasCallback : Bool
  body : BodyReader
  deriving DecidableEq, Repr

/-- The validation chain of Request.Exec (src/httpclient/request.go lines
90-104), returning the message of the first failing check. -/
def requestValidate (req : Request) : Option String :=
  if req.method.length = 0 then some "invalid method"
  else if req.url.length = 0 then some "invalid url"
  else if req.timeout < 0 then some "invalid timeout"
  else if req.hasCallback = false then some "invalid callback"
  else none

/-- Request.Exec followed by HttpClient.exec: validation, then body getter
setup, then the retry loop. A validation or body-type failure returns
before any Next call, with the balancer untouched. -/
def requestExec (now : Instant) (req : Request) (script : List Attempt)
    (lb : LoadBalancer) : Option (Option HErr × Nat × LoadBalancer) :=
  match requestValidate req with
  | some msg => some (some (.structured msg), 0, lb)
  | none =>
    match setupGetBody req.body with
    | .error msg => some (some (.structured msg), 0, lb)
    | .ok _ => execLoop now script lb 0

/-- Observable actions on the channel WaitNext returns. -/
inductive ChanEvent where
  | send (v : Option SRef)
  | close
  deriving DecidableEq, Repr

/-- The toWait scan inside WaitNext (src/loadbalancer.go lines 237-253):
fold over the primaries carrying the toWait accumulator; down servers whose
timestamp already passed break the scan; otherwise the smallest positive
remaining wait is kept. The initial accumulator is minus one. -/
def computeWait (now : Instant) : List Server → Int → Int
  | [], acc => acc
  | s :: rest, acc =>
    if s.isDown then
      let diff := s.failTimestamp - now
      if diff ≤ 0 then acc
      else if acc < 0 ∨ diff < acc then computeWait now rest diff
      else computeWait now rest acc
    else computeWait now rest acc

/-- The background task of LoadBalancer.WaitNext (src/loadbalancer.go lines
213-267), single-threaded view: repeatedly call Next; when a server is
obtained, leave the loop; when the primary list is empty, leave the loop
with the nil srv value from Next. After the loop the task sends the current
srv value on the channel and closes it. Sleeping advances the model time by
the computed wait. The fuel bounds the iterations modeled; none means the
task is still looping. -/
def waitNextTask : Nat → Instant → LoadBalancer → Option (List ChanEvent)
  | 0, _, _ => none
  | fuel + 1, now, lb =>
    let n := lb.Next now
    match n.2.2 with
    | some r => some [.send (some r), .close]
    | none =>
      if n.1.primaryGroup.srvList.length = 0 then some [.send none, .close]
      else
        let w := computeWait now n.1.primaryGroup.srvList (-1)
        waitNextTask fuel (now + max w 0) n.1

/-- The package global Create writes to: io.ErrClosedPipe from the
standard library, which is a non-nil error value at process start. -/
structure GoGlobals where
  ioErrClosedPipe : Option String
  deriving DecidableEq, Repr

/-- Mirrors Create from src/loadbalancer.go including its effect on package
globals: line 36 assigns nil to io.ErrClosedPipe before building the
balancer value. -/
def CreateWithGlobals (g : GoGlobals) : GoGlobals × LoadBalancer :=
  ({ g with ioErrClosedPipe := none }, LoadBalancer.Create)

/-- A server the Next walk can take or revive when it inspects it. -/
def Selectable (now : Instant) (s : Server) : Prop :=
  s.isDown = false ∨ now > s.failTimestamp

instance (now : Instant) (s : Server) : Decidable (Selectable now s) := by
  unfold Selectable
  infer_instance

/-- The well-formedness carried inductively through every operation. -/
def Phi (lb : LoadBalancer) : Prop :=
  CountInv lb ∧ BackupSafe lb

/-- Well-formedness needed to settle when Next returns nil: the count
invariant, weights at least one in both groups, and cursors in range for
non-empty groups. All of it is established by the API operations. -/
def WF (lb : LoadBalancer) : Prop :=
  CountInv lb
  ∧ (∀ s ∈ lb.primaryGroup.srvList, 1 ≤ s.opts.Weight)
  ∧ (∀ s ∈ lb.backupGroup.srvList, 1 ≤ s.opts.Weight)
  ∧ (lb.primaryGroup.srvList ≠ [] →
      lb.primaryGroup.currServerIdx < lb.primaryGroup.srvList.length)
  ∧ (lb.backupGroup.srvList ≠ [] →
      lb.backupGroup.currServerIdx < lb.backupGroup.srvList.length)

instance (lb : LoadBalancer) : Decidable (WF lb) := by
  unfold WF CountInv
  infer_instance

/-- The sequence of readers the retry loop obtains from the body getter:
the loop calls the getter once at the top of each iteration
(src/httpclient/exec.go line 92), so attempt k reads from getter call k. -/
def readersUsed (g : Nat → Option FreshReader) (n : Nat) : List (Option FreshReader) :=
  (List.range n).map g

/-!
## Counting lemmas
-/

theorem onlineCountOf_nil : onlineCountOf [] = 0 := rfl

theorem onlineCountOf_cons (s : Server) (l : List Server) :
    onlineCountOf (s :: l) = (if s.isDown then 0 else 1) + onlineCountOf l := by
  cases h : s.isDown <;>
    simp [onlineCountOf, List.filter_cons, h] <;> push_cast <;> ring

theorem onlineCountOf_nonneg (l : List Server) : 0 ≤ onlineCountOf l :=
  Int.natCast_nonneg _

theorem onlineCountOf_eq_zero (l : List Server) :
    onlineCountOf l = 0 ↔ ∀ s ∈ l, s.isDown = true := by
  induction l with
  | nil => simp [onlineCountOf]
  | cons s t ih =>
    have hn := onlineCountOf_nonneg t
    rw [onlineCountOf_cons]
    cases h : s.isDown <;> simp [h, ih] <;> omega

theorem exists_up_of_onlineCountOf_pos (l : List Server) (h : 0 < onlineCountOf l) :
    ∃ i srv, l.get? i = some srv ∧ srv.isDown = false := by
  by_contra hc
  push_neg at hc
  have hall : ∀ s ∈ l, s.isDown = true := by
    intro s hs
    obtain ⟨i, hi⟩ := List.mem_iff_get?.mp hs
    cases hb : s.isDown
    · exact absurd hb (hc i s hi)
    · rfl
  rw [(onlineCountOf_eq_zero l).mpr hall] at h
  omega

theorem onlineCountOf_append (l : List Server) (s : Server) :
    onlineCountOf (l ++ [s]) = onlineCountOf l + (if s.isDown then 0 else 1) := by
  induction l with
  | nil => cases h : s.isDown <;> simp [onlineCountOf, onlineCountOf_cons, h]
  | cons a t ih =>
    rw [List.cons_append, onlineCountOf_cons, onlineCountOf_cons, ih]
    ring

theorem onlineCountOf_set (l : List Server) (i : Nat) (s srv : Server)
    (h : l.get? i = some srv) :
    onlineCountOf (l.set i s) =
      onlineCountOf l + (if s.isDown then 0 else 1) - (if srv.isDown then 0 else 1) := by
  induction l generalizing i with
  | nil => simp at h
  | cons a t ih =>
    cases i with
    | zero =>
      simp only [List.get?_cons_zero, Option.some_inj] at h
      subst h
      simp only [List.set_cons_zero, onlineCountOf_cons]
      ring
    | succ n =>
      simp only [List.get?_cons_succ] at h
      simp only [List.set_cons_succ, onlineCountOf_cons, ih n h]
      ring

/-!
## Recovery sweep lemmas
-/

theorem sweepFrom_length (now : Instant) (i : Nat) (l : List Server) :
    (sweepFrom now i l).1.length = l.length := by
  induction l generalizing i with
  | nil => rfl
  | cons s t ih =>
    simp only [sweepFrom]
    by_cases h : now > s.failTimestamp <;> simp [h, ih]

theorem sweepFrom_count_nonneg (now : Instant) (i : Nat) (l : List Server) :
    0 ≤ (sweepFrom now i l).2.1 := by
  induction l generalizing i with
  | nil => simp [sweepFrom]
  | cons s t ih =>
    have := ih (i + 1)
    by_cases h : now > s.failTimestamp <;> simp only [sweepFrom, if_pos, if_neg, h] <;>
      simp <;> omega

theorem sweepFrom_onlineCount (now : Instant) (i : Nat) (l : List Server)
    (hall : ∀ s ∈ l, s.isDown = true) :
    onlineCountOf (sweepFrom now i l).1 = (sweepFrom now i l).2.1 := by
  induction l generalizing i with
  | nil => simp [sweepFrom, onlineCountOf]
  | cons s t ih =>
    have hs := hall s (List.mem_cons_self s t)
    have ht : ∀ x ∈ t, x.isDown = true := fun x hx => hall x (List.mem_cons_of_mem s hx)
    simp only [sweepFrom]
    by_cases h : now > s.failTimestamp <;>
      simp [h, onlineCountOf_cons, hs, ih (i + 1) ht] <;> ring

theorem sweepFrom_noRevive (now : Instant) (i : Nat) (l : List Server)
    (h : ∀ s ∈ l, ¬now > s.failTimestamp) :
    sweepFrom now i l = (l, 0, []) := by
  induction l generalizing i with
  | nil => rfl
  | cons s t ih =>
    have hs := h s (List.mem_cons_self s t)
    have ht : ∀ x ∈ t, ¬now > x.failTimestamp := fun x hx => h x (List.mem_cons_of_mem s hx)
    simp [sweepFrom, ih (i + 1) ht, hs]

theorem sweepFrom_count_zero (now : Instant) (i : Nat) (l : List Server)
    (h : (sweepFrom now i l).2.1 = 0) : ∀ s ∈ l, ¬now > s.failTimestamp := by
  induction l generalizing i with
  | nil => simp
  | cons s t ih =>
    intro x hx
    by_cases hs : now > s.failTimestamp
    · exfalso
      have hn := sweepFrom_count_nonneg now (i + 1) t
      simp only [sweepFrom, if_pos hs] at h
      omega
    · simp only [sweepFrom, if_neg hs] at h
      rcases List.mem_cons.mp hx with rfl | hx2
      · exact hs
      · exact ih (i + 1) h x hx2

theorem sweepFrom_weights (now : Instant) (i : Nat) (l : List Server)
    (h : ∀ s ∈ l, 1 ≤ s.opts.Weight) :
    ∀ s ∈ (sweepFrom now i l).1, 1 ≤ s.opts.Weight := by
  induction l generalizing i with
  | nil => simp [sweepFrom]
  | cons s t ih =>
    have hs := h s (List.mem_cons_self s t)
    have ht : ∀ x ∈ t, 1 ≤ x.opts.Weight := fun x hx => h x (List.mem_cons_of_mem s hx)
    intro x hx
    by_cases hc : now > s.failTimestamp
    · simp only [sweepFrom, if_pos hc] at hx
      rcases List.mem_cons.mp hx with rfl | hx2
      · exact hs
      · exact ih (i + 1) ht x hx2
    · simp only [sweepFrom, if_neg hc] at hx
      rcases List.mem_cons.mp hx with rfl | hx2
      · exact hs
      · exact ih (i + 1) ht x hx2

/-!
## Primary walk lemmas
-/

theorem primWalk_succ (now : Instant) (f : Nat) (st : WalkState) :
    primWalk now (f + 1) st = primWalkBody now (primWalk now f) st := rfl

theorem backupWalk_succ (f : Nat) (g : ServerGroup) :
    backupWalk (f + 1) g = backupWalkBody (backupWalk f) g := rfl

theorem primWalk_length (now : Instant) (fuel : Nat) (st : WalkState) :
    ((primWalk now fuel st).1).g.srvList.length = st.g.srvList.length := by
  induction fuel generalizing st with
  | zero => rfl
  | succ f ih =>
    rw [primWalk_succ]
    cases hg : st.g.srvList.get? st.g.currServerIdx with
    | none => simp only [primWalkBody, hg]
    | some srv0 =>
      simp only [primWalkBody, hg]
      by_cases h1 : srv0.isDown = true ∧ now > srv0.failTimestamp
      · rw [if_pos h1]
        by_cases h2 : st.g.currServerWeight < srv0.opts.Weight
        · rw [if_pos h2]
          simp
        · rw [if_neg h2, ih]
          simp
      · rw [if_neg h1]
        by_cases h2 : srv0.isDown = false ∧ st.g.currServerWeight < srv0.opts.Weight
        · rw [if_pos h2]
        · rw [if_neg h2, ih]

theorem primWalk_countInv (now : Instant) (fuel : Nat) (st : WalkState)
    (h : st.count = onlineCountOf st.g.srvList) :
    ((primWalk now fuel st).1).count =
      onlineCountOf ((primWalk now fuel st).1).g.srvList := by
  induction fuel generalizing st with
  | zero => exact h
  | succ f ih =>
    rw [primWalk_succ]
    cases hg : st.g.srvList.get? st.g.currServerIdx with
    | none => simpa only [primWalkBody, hg] using h
    | some srv0 =>
      simp only [primWalkBody, hg]
      by_cases h1 : srv0.isDown = true ∧ now > srv0.failTimestamp
      · have hset := onlineCountOf_set st.g.srvList st.g.currServerIdx
          { srv0 with isDown := false } srv0 hg
        rw [if_pos h1]
        by_cases h2 : st.g.currServerWeight < srv0.opts.Weight
        · rw [if_pos h2]
          simp only
          rw [hset]
          simp [h1.1, h]
        · rw [if_neg h2]
          apply ih
          simp only
          rw [hset]
          simp [h1.1, h]
      · rw [if_neg h1]
        by_cases h2 : srv0.isDown = false ∧ st.g.currServerWeight < srv0.opts.Weight
        · rw [if_pos h2]
          exact h
        · rw [if_neg h2]
          exact ih _ h

/-- When the server under the cursor is selectable and has weight budget,
the walk selects it immediately. -/
theorem primWalk_select_here (now : Instant) (f : Nat) (st : WalkState) (srv : Server)
    (hget : st.g.srvList.get? st.g.currServerIdx = some srv)
    (hs : Selectable now srv)
    (hw : st.g.currServerWeight < srv.opts.Weight) :
    ((primWalk now (f + 1) st).2).isSome := by
  rw [primWalk_succ]
  simp only [primWalkBody, hget]
  rcases hs with hup | hts
  · have h1 : ¬(srv.isDown = true ∧ now > srv.failTimestamp) := by simp [hup]
    rw [if_neg h1, if_pos ⟨hup, hw⟩]
    simp
  · by_cases hdown : srv.isDown = true
    · rw [if_pos ⟨hdown, hts⟩, if_pos hw]
      simp
    · have hup : srv.isDown = false := by
        cases hb : srv.isDown
        · rfl
        · exact absurd hb hdown
      have h1 : ¬(srv.isDown = true ∧ now > srv.failTimestamp) := fun hc => hdown hc.1
      rw [if_neg h1, if_pos ⟨hup, hw⟩]
      simp

theorem exists_mod_offset (len start j : Nat) (hs : start < len) (hj : j < len) :
    ∃ d, d < len ∧ (start + d) % len = j := by
  by_cases h : start ≤ j
  · refine ⟨j - start, by omega, ?_⟩
    have he : start + (j - start) = j := by omega
    rw [he, Nat.mod_eq_of_lt hj]
  · refine ⟨j + len - start, by omega, ?_⟩
    have he : start + (j + len - start) = j + len := by omega
    rw [he, Nat.add_mod_right, Nat.mod_eq_of_lt hj]

/-- From a cursor with weight budget zero, the walk selects within d + 1
iterations when the server d cyclic steps ahead is selectable (all weights
at least one). -/
theorem primWalk_finds_aux (now : Instant) :
    ∀ d fuel (st : WalkState),
      st.g.currServerWeight = 0 →
      st.g.currServerIdx < st.g.srvList.length →
      (∀ s ∈ st.g.srvList, 1 ≤ s.opts.Weight) →
      (∃ srv, st.g.srvList.get? ((st.g.currServerIdx + d) % st.g.srvList.length) =
        some srv ∧ Selectable now srv) →
      d < fuel →
      ((primWalk now fuel st).2).isSome := by
  intro d
  induction d with
  | zero =>
    intro fuel st hw0 hidx hwts hsel hf
    obtain ⟨srv, hget, hs⟩ := hsel
    rw [Nat.add_zero, Nat.mod_eq_of_lt hidx] at hget
    cases fuel with
    | zero => omega
    | succ f =>
      have hw1 : 1 ≤ srv.opts.Weight := hwts srv (List.get?_mem hget)
      exact primWalk_select_here now f st srv hget hs (by omega)
  | succ d ih =>
    intro fuel st hw0 hidx hwts hsel hf
    obtain ⟨srv0, hget0⟩ : ∃ a, st.g.srvList.get? st.g.currServerIdx = some a := by
      rw [List.get?_eq_get hidx]
      exact ⟨_, rfl⟩
    cases fuel with
    | zero => omega
    | succ f =>
      by_cases hs0 : Selectable now srv0
      · have hw1 : 1 ≤ srv0.opts.Weight := hwts srv0 (List.get?_mem hget0)
        exact primWalk_select_here now f st srv0 hget0 hs0 (by omega)
      · have hdown : srv0.isDown = true := by
          cases hb : srv0.isDown
          · exact absurd (Or.inl hb) hs0
          · rfl
        have hnts : ¬now > srv0.failTimestamp := fun hc => hs0 (Or.inr hc)
        have h1 : ¬(srv0.isDown = true ∧ now > srv0.failTimestamp) := fun hc => hnts hc.2
        have h2 : ¬(srv0.isDown = false ∧ st.g.currServerWeight < srv0.opts.Weight) := by
          intro hc
          rw [hdown] at hc
          exact absurd hc.1 (by simp)
        rw [primWalk_succ]
        simp only [primWalkBody, hget0, if_neg h1, if_neg h2]
        have hlen : 0 < st.g.srvList.length := by omega
        apply ih f
        · rfl
        · simp only
          split <;> omega
        · simpa using hwts
        · obtain ⟨srv, hget, hs⟩ := hsel
          refine ⟨srv, ?_, hs⟩
          simp only
          have hmod : ((if st.g.currServerIdx + 1 ≥ st.g.srvList.length then 0
              else st.g.currServerIdx + 1) + d) % st.g.srvList.length =
              (st.g.currServerIdx + (d + 1)) % st.g.srvList.length := by
            by_cases hb : st.g.currServerIdx + 1 ≥ st.g.srvList.length
            · rw [if_pos hb]
              have he : st.g.currServerIdx + (d + 1) = st.g.srvList.length + d := by omega
              rw [he, Nat.add_mod_left, Nat.zero_add]
            · rw [if_neg hb]
              congr 1
              omega
          rw [hmod]
          exact hget
        · omega

/-- With the fuel Next passes (list length plus two), the primary walk
selects whenever the cursor is in range, all weights are at least one, and
some server in the list is selectable. -/
theorem primWalk_finds (now : Instant) (st : WalkState)
    (hidx : st.g.currServerIdx < st.g.srvList.length)
    (hwts : ∀ s ∈ st.g.srvList, 1 ≤ s.opts.Weight)
    (hsel : ∃ j srv, st.g.srvList.get? j = some srv ∧ Selectable now srv) :
    ((primWalk now (st.g.srvList.length + 2) st).2).isSome := by
  obtain ⟨j, srvj, hj, hsj⟩ := hsel
  have hjlen : j < st.g.srvList.length := (List.get?_eq_some.mp hj).1
  obtain ⟨srv0, hget0⟩ : ∃ a, st.g.srvList.get? st.g.currServerIdx = some a := by
    rw [List.get?_eq_get hidx]
    exact ⟨_, rfl⟩
  have hfu : st.g.srvList.length + 2 = (st.g.srvList.length + 1) + 1 := rfl
  rw [hfu]
  by_cases hsw : Selectable now srv0 ∧ st.g.currServerWeight < srv0.opts.Weight
  · exact primWalk_select_here now _ st srv0 hget0 hsw.1 hsw.2
  · by_cases hA : srv0.isDown = true ∧ now > srv0.failTimestamp
    · have hnw : ¬st.g.currServerWeight < srv0.opts.Weight := fun hc =>
        hsw ⟨Or.inr hA.2, hc⟩
      rw [primWalk_succ]
      simp only [primWalkBody, hget0, if_pos hA, if_neg hnw]
      have hidx2 : (if st.g.currServerIdx + 1 ≥ st.g.srvList.length then 0
          else st.g.currServerIdx + 1) < st.g.srvList.length := by
        split <;> omega
      obtain ⟨d, hd, hmod⟩ := exists_mod_offset st.g.srvList.length
        (if st.g.currServerIdx + 1 ≥ st.g.srvList.length then 0
          else st.g.currServerIdx + 1) j hidx2 hjlen
      apply primWalk_finds_aux now d
      · rfl
      · simpa using hidx2
      · intro s hs
        rcases List.mem_or_eq_of_mem_set hs with hmem | heq
        · exact hwts s hmem
        · rw [heq]
          exact hwts srv0 (List.get?_mem hget0)
      · have hlen2 : (st.g.srvList.set st.g.currServerIdx
            { srv0 with isDown := false }).length = st.g.srvList.length := by
          simp
        by_cases hji : j = st.g.currServerIdx
        · refine ⟨{ srv0 with isDown := false }, ?_, Or.inl rfl⟩
          simp only [hlen2]
          rw [hmod, hji]
          exact List.get?_set_eq_of_lt _ hidx
        · refine ⟨srvj, ?_, hsj⟩
          simp only [hlen2]
          rw [hmod, List.get?_set_ne _ _ (fun hc => hji hc.symm)]
          exact hj
      · omega
    · have hB : ¬(srv0.isDown = false ∧ st.g.currServerWeight < srv0.opts.Weight) := by
        intro hc
        exact hsw ⟨Or.inl hc.1, hc.2⟩
      rw [primWalk_succ]
      simp only [primWalkBody, hget0, if_neg hA, if_neg hB]
      have hidx2 : (if st.g.currServerIdx + 1 ≥ st.g.srvList.length then 0
          else st.g.currServerIdx + 1) < st.g.srvList.length := by
        split <;> omega
      obtain ⟨d, hd, hmod⟩ := exists_mod_offset st.g.srvList.length
        (if st.g.currServerIdx + 1 ≥ st.g.srvList.length then 0
          else st.g.currServerIdx + 1) j hidx2 hjlen
      apply primWalk_finds_aux now d
      · rfl
      · simpa using hidx2
      · simpa using hwts
      · refine ⟨srvj, ?_, hsj⟩
        simp only
        rw [hmod]
        exact hj
      · omega

/-- With fuel at least two, the backup walk always selects when the group
cursor is in range and all weights are at least one. -/
theorem backupWalk_finds (f : Nat) (g : ServerGroup)
    (hidx : g.currServerIdx < g.srvList.length)
    (hwts : ∀ s ∈ g.srvList, 1 ≤ s.opts.Weight) :
    ((backupWalk (f + 2) g).2).isSome := by
  obtain ⟨srv0, hget0⟩ : ∃ a, g.srvList.get? g.currServerIdx = some a := by
    rw [List.get?_eq_get hidx]
    exact ⟨_, rfl⟩
  have hfu : f + 2 = (f + 1) + 1 := rfl
  rw [hfu, backupWalk_succ]
  simp only [backupWalkBody, hget0]
  by_cases hb : g.currServerWeight < srv0.opts.Weight
  · rw [if_pos hb]
    simp
  · rw [if_neg hb]
    have hidx2 : (if g.currServerIdx + 1 ≥ g.srvList.length then 0
        else g.currServerIdx + 1) < g.srvList.length := by
      split <;> omega
    obtain ⟨srv1, hget1⟩ : ∃ a, g.srvList.get? (if g.currServerIdx + 1 ≥ g.srvList.length
        then 0 else g.currServerIdx + 1) = some a := by
      rw [List.get?_eq_get hidx2]
      exact ⟨_, rfl⟩
    have hw1 : 1 ≤ srv1.opts.Weight := hwts srv1 (List.get?_mem hget1)
    rw [backupWalk_succ]
    simp only [backupWalkBody, hget1]
    rw [if_pos (by omega : (0 : Int) < srv1.opts.Weight)]
    simp

theorem backupWalk_srvList (f : Nat) (g : ServerGroup) :
    ((backupWalk f g).1).srvList = g.srvList := by
  induction f generalizing g with
  | zero => rfl
  | succ n ih =>
    rw [backupWalk_succ]
    cases hg : g.srvList.get? g.currServerIdx with
    | none => simp only [backupWalkBody, hg]
    | some srv =>
      simp only [backupWalkBody, hg]
      by_cases hb : g.currServerWeight < srv.opts.Weight
      · rw [if_pos hb]
      · rw [if_neg hb, ih]

/-!
## Preservation of the count invariant and the backup shape
-/

theorem phi_Create : Phi LoadBalancer.Create := by
  constructor
  · rfl
  · intro s hs
    simp [LoadBalancer.Create] at hs

theorem countInv_sweep (now : Instant) (lb : LoadBalancer) (h : CountInv lb)
    (hc0 : lb.primaryOnlineCount = 0) : CountInv (lb.sweep now).1 := by
  have hz : onlineCountOf lb.primaryGroup.srvList = 0 := by rw [← h, hc0]
  have hall := (onlineCountOf_eq_zero _).mp hz
  unfold CountInv LoadBalancer.sweep
  simp only
  rw [sweepFrom_onlineCount now 0 _ hall, hc0]
  ring

theorem backupSafe_sweep (now : Instant) (lb : LoadBalancer) (h : BackupSafe lb) :
    BackupSafe (lb.sweep now).1 := by
  unfold BackupSafe LoadBalancer.sweep at *
  simpa using h

theorem phi_nextSweep (lb : LoadBalancer) (now : Instant) (h : Phi lb) :
    Phi (lb.nextSweep now).1 := by
  unfold LoadBalancer.nextSweep
  by_cases hc0 : lb.primaryOnlineCount = 0
  · rw [if_pos hc0]
    exact ⟨countInv_sweep now lb h.1 hc0, backupSafe_sweep now lb h.2⟩
  · rw [if_neg hc0]
    exact h

theorem phi_nextPrimary (lb1 : LoadBalancer) (now : Instant) (h : Phi lb1) :
    Phi (lb1.nextPrimary now).1 := by
  unfold LoadBalancer.nextPrimary
  by_cases hp : 0 < lb1.primaryOnlineCount
  · rw [if_pos hp]
    refine ⟨?_, ?_⟩
    · have hcc := primWalk_countInv now (lb1.primaryGroup.srvList.length + 2)
        ⟨lb1.primaryGroup, lb1.primaryOnlineCount, []⟩ h.1
      simpa [CountInv] using hcc
    · simpa [BackupSafe] using h.2
  · rw [if_neg hp]
    exact h

theorem phi_nextBackup (lb2 : LoadBalancer) (h : Phi lb2) : Phi lb2.nextBackup.1 := by
  unfold LoadBalancer.nextBackup
  by_cases hb : 0 < lb2.backupGroup.srvList.length
  · rw [if_pos hb]
    refine ⟨?_, ?_⟩
    · simpa [CountInv] using h.1
    · have hl := backupWalk_srvList (lb2.backupGroup.srvList.length + 2) lb2.backupGroup
      simp only [BackupSafe]
      simp only [hl]
      exact h.2
  · rw [if_neg hb]
    exact h

theorem phi_Next (lb : LoadBalancer) (now : Instant) (h : Phi lb) :
    Phi (lb.Next now).1 := by
  have h1 := phi_nextSweep lb now h
  have h2 := phi_nextPrimary _ now h1
  unfold LoadBalancer.Next
  cases hsel : ((lb.nextSweep now).1.nextPrimary now).2.2 with
  | some r =>
    simp only [hsel]
    exact h2
  | none =>
    simp only [hsel]
    exact phi_nextBackup _ h2

theorem phi_Add_ok (lb lb2 : LoadBalancer) (opts : ServerOptions) (ud : Nat)
    (h : Phi lb) (hok : lb.Add opts ud = .ok lb2) : Phi lb2 := by
  unfold LoadBalancer.Add at hok
  by_cases h1 : opts.Weight < 0
  · rw [if_pos h1] at hok
    exact absurd hok (by simp)
  rw [if_neg h1] at hok
  by_cases h2 : ¬opts.IsBackup ∧ 0 < opts.MaxFails ∧ opts.FailTimeout ≤ 0
  · rw [if_pos h2] at hok
    exact absurd hok (by simp)
  rw [if_neg h2] at hok
  by_cases h3 : ¬opts.IsBackup ∧ opts.MaxFails < 0
  · rw [if_pos h3] at hok
    exact absurd hok (by simp)
  rw [if_neg h3] at hok
  simp only at hok
  by_cases h4 : opts.IsBackup
  · rw [if_pos h4] at hok
    injection hok with he
    subst he
    refine ⟨h.1, ?_⟩
    intro s hs
    simp only at hs
    rcases List.mem_append.mp hs with hold | hnew
    · exact h.2 s hold
    · have : s = ⟨(if opts.IsBackup ∨
          (if opts.Weight = 0 then { opts with Weight := 1 } else opts).MaxFails = 0 then
          { (if opts.Weight = 0 then { opts with Weight := 1 } else opts) with
            MaxFails := 0, FailTimeout := 0 }
          else (if opts.Weight = 0 then { opts with Weight := 1 } else opts)),
          lb.backupGroup.srvList.length, false, 0, 0, ud⟩ := by
        simpa using hnew
      rw [this]
      simp [if_pos (Or.inl h4)]
  · rw [if_neg h4] at hok
    injection hok with he
    subst he
    refine ⟨?_, ?_⟩
    · unfold CountInv
      simp only
      rw [onlineCountOf_append]
      simp only
      rw [if_neg (by simp : ¬(false = true))]
      rw [h.1]
    · intro s hs
      exact h.2 s hs

theorem phi_SetOnline (lb : LoadBalancer) (r : SRef) (h : Phi lb) :
    Phi (lb.SetOnline r).1 := by
  unfold LoadBalancer.SetOnline
  cases hg : lb.getSrv r with
  | none => exact h
  | some srv =>
    simp only
    by_cases hguard : srv.opts.MaxFails = 0 ∨ srv.opts.IsBackup
    · rw [if_pos hguard]
      exact h
    · rw [if_neg hguard]
      cases hrb : r.inBackup
      · have hgp : lb.primaryGroup.srvList.get? r.idx = some srv := by
          unfold LoadBalancer.getSrv at hg
          rw [hrb] at hg
          simpa using hg
        by_cases hd : srv.isDown = true
        · rw [if_pos hd]
          refine ⟨?_, ?_⟩
          · unfold CountInv LoadBalancer.bumpCount LoadBalancer.setSrv
            rw [hrb]
            simp only [Bool.false_eq_true, if_false]
            have hci : lb.primaryOnlineCount = onlineCountOf lb.primaryGroup.srvList := h.1
            rw [onlineCountOf_set _ _ _ _ hgp]
            simp [hd]
            omega
          · unfold BackupSafe LoadBalancer.bumpCount LoadBalancer.setSrv
            rw [hrb]
            simpa using h.2
        · rw [if_neg hd]
          refine ⟨?_, ?_⟩
          · unfold CountInv LoadBalancer.setSrv
            rw [hrb]
            simp only [Bool.false_eq_true, if_false]
            rw [onlineCountOf_set _ _ _ _ hgp]
            simp only
            have hd2 : srv.isDown = false := by
              cases hb : srv.isDown
              · rfl
              · exact absurd hb hd
            simp [hd2]
            exact h.1
          · unfold BackupSafe LoadBalancer.setSrv
            rw [hrb]
            simpa using h.2
      · exfalso
        have hgb : lb.backupGroup.srvList.get? r.idx = some srv := by
          unfold LoadBalancer.getSrv at hg
          rw [hrb] at hg
          simpa using hg
        exact hguard (Or.inl (h.2 srv (List.get?_mem hgb)))

theorem phi_SetOffline (lb : LoadBalancer) (now : Instant) (r : SRef) (h : Phi lb) :
    Phi (lb.SetOffline now r).1 := by
  unfold LoadBalancer.SetOffline
  cases hg : lb.getSrv r with
  | none => exact h
  | some srv =>
    simp only
    by_cases hguard : srv.opts.MaxFails = 0 ∨ srv.opts.IsBackup
    · rw [if_pos hguard]
      exact h
    · rw [if_neg hguard]
      by_cases hact : srv.isDown = false ∧ srv.failCounter < srv.opts.MaxFails
      · rw [if_pos hact]
        cases hrb : r.inBackup
        · have hgp : lb.primaryGroup.srvList.get? r.idx = some srv := by
            unfold LoadBalancer.getSrv at hg
            rw [hrb] at hg
            simpa using hg
          by_cases hmax : (if srv.failCounter + 1 = 1 then
              (srv.failCounter + 1, now + srv.opts.FailTimeout)
              else if now > srv.failTimestamp then ((1 : Int), srv.failTimestamp)
              else (srv.failCounter + 1, srv.failTimestamp)).1 = srv.opts.MaxFails
          · rw [if_pos hmax]
            refine ⟨?_, ?_⟩
            · unfold CountInv LoadBalancer.bumpCount LoadBalancer.setSrv
              rw [hrb]
              simp only [Bool.false_eq_true, if_false]
              have hci : lb.primaryOnlineCount = onlineCountOf lb.primaryGroup.srvList := h.1
              rw [onlineCountOf_set _ _ _ _ hgp]
              simp [hact.1]
              omega
            · unfold BackupSafe LoadBalancer.bumpCount LoadBalancer.setSrv
              rw [hrb]
              simpa using h.2
          · rw [if_neg hmax]
            refine ⟨?_, ?_⟩
            · unfold CountInv LoadBalancer.setSrv
              rw [hrb]
              simp only [Bool.false_eq_true, if_false]
              rw [onlineCountOf_set _ _ _ _ hgp]
              simp [hact.1]
              exact h.1
            · unfold BackupSafe LoadBalancer.setSrv
              rw [hrb]
              simpa using h.2
        · exfalso
          have hgb : lb.backupGroup.srvList.get? r.idx = some srv := by
            unfold LoadBalancer.getSrv at hg
            rw [hrb] at hg
            simpa using hg
          exact hguard (Or.inl (h.2 srv (List.get?_mem hgb)))
      · rw [if_neg hact]
        exact h

theorem phi_applyOp (lb : LoadBalancer) (op : Op) (h : Phi lb) : Phi (applyOp lb op) := by
  cases op with
  | add opts ud =>
    cases hA : lb.Add opts ud with
    | ok lb2 =>
      simp only [applyOp, hA]
      exact phi_Add_ok lb lb2 opts ud h hA
    | error e =>
      simp only [applyOp, hA]
      exact h
  | next now => exact phi_Next lb now h
  | setOnline r => exact phi_SetOnline lb r h
  | setOffline now r => exact phi_SetOffline lb now r h

theorem phi_applyOps (lb : LoadBalancer) (ops : List Op) (h : Phi lb) :
    Phi (applyOps lb ops) := by
  induction ops generalizing lb with
  | nil => exact h
  | cons op rest ih => exact ih _ (phi_applyOp lb op h)

/-!
## Characterization of Next returning nil
-/

theorem nextPrimary_some (lb1 : LoadBalancer) (now : Instant)
    (hp : 0 < lb1.primaryOnlineCount)
    (hci : CountInv lb1)
    (hwts : ∀ s ∈ lb1.primaryGroup.srvList, 1 ≤ s.opts.Weight)
    (hidx : lb1.primaryGroup.srvList ≠ [] →
      lb1.primaryGroup.currServerIdx < lb1.primaryGroup.srvList.length) :
    ((lb1.nextPrimary now).2.2).isSome := by
  have hpos : 0 < onlineCountOf lb1.primaryGroup.srvList := by
    rw [← hci]
    exact hp
  obtain ⟨i, srv, hget, hup⟩ := exists_up_of_onlineCountOf_pos _ hpos
  have hne : lb1.primaryGroup.srvList ≠ [] := by
    intro hc
    rw [hc] at hget
    simp at hget
  have hfind := primWalk_finds now ⟨lb1.primaryGroup, lb1.primaryOnlineCount, []⟩
    (hidx hne) hwts ⟨i, srv, hget, Or.inl hup⟩
  unfold LoadBalancer.nextPrimary
  rw [if_pos hp]
  simp only
  obtain ⟨j, hj⟩ := Option.isSome_iff_exists.mp hfind
  rw [hj]
  simp

theorem nextBackup_some (lb2 : LoadBalancer)
    (hb : lb2.backupGroup.srvList ≠ [])
    (hwts : ∀ s ∈ lb2.backupGroup.srvList, 1 ≤ s.opts.Weight)
    (hidx : lb2.backupGroup.currServerIdx < lb2.backupGroup.srvList.length) :
    (lb2.nextBackup.2).isSome := by
  have hlen : 0 < lb2.backupGroup.srvList.length := List.length_pos.mpr hb
  have hfind := backupWalk_finds lb2.backupGroup.srvList.length lb2.backupGroup hidx hwts
  unfold LoadBalancer.nextBackup
  rw [if_pos hlen]
  simp only
  obtain ⟨j, hj⟩ := Option.isSome_iff_exists.mp hfind
  rw [hj]
  simp

theorem nextPrimary_backup (lb1 : LoadBalancer) (now : Instant) :
    (lb1.nextPrimary now).1.backupGroup = lb1.backupGroup := by
  unfold LoadBalancer.nextPrimary
  by_cases hp : 0 < lb1.primaryOnlineCount
  · rw [if_pos hp]
  · rw [if_neg hp]

theorem nextSweep_facts (lb : LoadBalancer) (now : Instant) :
    (lb.nextSweep now).1.backupGroup = lb.backupGroup ∧
    (lb.nextSweep now).1.primaryGroup.currServerIdx = lb.primaryGroup.currServerIdx ∧
    (lb.nextSweep now).1.primaryGroup.srvList.length = lb.primaryGroup.srvList.length := by
  unfold LoadBalancer.nextSweep LoadBalancer.sweep
  by_cases hc : lb.primaryOnlineCount = 0
  · rw [if_pos hc]
    refine ⟨rfl, rfl, ?_⟩
    simpa using sweepFrom_length now 0 _
  · rw [if_neg hc]
    exact ⟨rfl, rfl, rfl⟩

theorem next_sel_eq (lb : LoadBalancer) (now : Instant) :
    (lb.Next now).2.2 =
      (match ((lb.nextSweep now).1.nextPrimary now).2.2 with
        | some r => some r
        | none => ((lb.nextSweep now).1.nextPrimary now).1.nextBackup.2) := by
  unfold LoadBalancer.Next
  cases hm : ((lb.nextSweep now).1.nextPrimary now).2.2 with
  | some r => simp [hm]
  | none => simp [hm]

theorem next_none_then (lb : LoadBalancer) (now : Instant) (hwf : WF lb)
    (hnone : (lb.Next now).2.2 = none) :
    (∀ s ∈ lb.primaryGroup.srvList, s.isDown = true ∧ now ≤ s.failTimestamp) ∧
      lb.backupGroup.srvList = [] := by
  obtain ⟨hci, hwp, hwb, hip, hib⟩ := hwf
  rw [next_sel_eq] at hnone
  cases hphsel : ((lb.nextSweep now).1.nextPrimary now).2.2 with
  | some r =>
    rw [hphsel] at hnone
    simp at hnone
  | none =>
    rw [hphsel] at hnone
    simp only at hnone
    have hsw := nextSweep_facts lb now
    have hci1 : CountInv (lb.nextSweep now).1 := by
      unfold LoadBalancer.nextSweep
      by_cases hc : lb.primaryOnlineCount = 0
      · rw [if_pos hc]
        exact countInv_sweep now lb hci hc
      · rw [if_neg hc]
        exact hci
    have hwp1 : ∀ s ∈ (lb.nextSweep now).1.primaryGroup.srvList, 1 ≤ s.opts.Weight := by
      unfold LoadBalancer.nextSweep
      by_cases hc : lb.primaryOnlineCount = 0
      · rw [if_pos hc]
        unfold LoadBalancer.sweep
        simp only
        exact sweepFrom_weights now 0 _ hwp
      · rw [if_neg hc]
        exact hwp
    have hcz : (lb.nextSweep now).1.primaryOnlineCount = 0 := by
      by_contra hnz
      have hq : (lb.nextSweep now).1.primaryOnlineCount =
          onlineCountOf (lb.nextSweep now).1.primaryGroup.srvList := hci1
      have hnn := onlineCountOf_nonneg (lb.nextSweep now).1.primaryGroup.srvList
      have hpos : 0 < (lb.nextSweep now).1.primaryOnlineCount := by omega
      have hidx1 : (lb.nextSweep now).1.primaryGroup.srvList ≠ [] →
          (lb.nextSweep now).1.primaryGroup.currServerIdx <
            (lb.nextSweep now).1.primaryGroup.srvList.length := by
        intro hne
        rw [hsw.2.1, hsw.2.2]
        apply hip
        intro hc
        apply hne
        have hl := hsw.2.2
        rw [hc] at hl
        simp only [List.length_nil] at hl
        exact List.length_eq_zero.mp hl
      have hsome := nextPrimary_some _ now hpos hci1 hwp1 hidx1
      rw [hphsel] at hsome
      simp at hsome
    have hbe : lb.backupGroup.srvList = [] := by
      by_contra hbne
      have hback1 : ((lb.nextSweep now).1.nextPrimary now).1.backupGroup =
          lb.backupGroup := by
        rw [nextPrimary_backup, hsw.1]
      have hsome := nextBackup_some ((lb.nextSweep now).1.nextPrimary now).1
        (by rw [hback1]; exact hbne)
        (by rw [hback1]; exact hwb)
        (by rw [hback1]; exact hib hbne)
      rw [hnone] at hsome
      simp at hsome
    refine ⟨?_, hbe⟩
    by_cases hc : lb.primaryOnlineCount = 0
    · have halldown : ∀ s ∈ lb.primaryGroup.srvList, s.isDown = true := by
        apply (onlineCountOf_eq_zero _).mp
        rw [← hci]
        exact hc
      have hn0 : (sweepFrom now 0 lb.primaryGroup.srvList).2.1 = 0 := by
        have hx : (lb.nextSweep now).1.primaryOnlineCount =
            lb.primaryOnlineCount + (sweepFrom now 0 lb.primaryGroup.srvList).2.1 := by
          unfold LoadBalancer.nextSweep LoadBalancer.sweep
          rw [if_pos hc]
        rw [hx] at hcz
        omega
      have hnorev := sweepFrom_count_zero now 0 _ hn0
      intro s hs
      exact ⟨halldown s hs, not_lt.mp (hnorev s hs)⟩
    · exfalso
      have hsame : (lb.nextSweep now).1.primaryOnlineCount = lb.primaryOnlineCount := by
        unfold LoadBalancer.nextSweep
        rw [if_neg hc]
      omega

theorem next_none_of (lb : LoadBalancer) (now : Instant) (hci : CountInv lb)
    (hall : ∀ s ∈ lb.primaryGroup.srvList, s.isDown = true ∧ now ≤ s.failTimestamp)
    (hb : lb.backupGroup.srvList = []) :
    (lb.Next now).2.2 = none := by
  have hz : onlineCountOf lb.primaryGroup.srvList = 0 :=
    (onlineCountOf_eq_zero _).mpr (fun s hs => (hall s hs).1)
  have hc0 : lb.primaryOnlineCount = 0 := by
    rw [hci, hz]
  have hnorev : ∀ s ∈ lb.primaryGroup.srvList, ¬now > s.failTimestamp := fun s hs =>
    not_lt.mpr (hall s hs).2
  have hswid : sweepFrom now 0 lb.primaryGroup.srvList =
      (lb.primaryGroup.srvList, 0, []) := sweepFrom_noRevive now 0 _ hnorev
  have h1 : (lb.nextSweep now).1 = lb := by
    unfold LoadBalancer.nextSweep LoadBalancer.sweep
    rw [if_pos hc0]
    simp [hswid]
  have h2 : lb.nextPrimary now = (lb, [], none) := by
    unfold LoadBalancer.nextPrimary
    rw [if_neg (by omega : ¬0 < lb.primaryOnlineCount)]
  have h3 : lb.nextBackup.2 = none := by
    unfold LoadBalancer.nextBackup
    rw [if_neg (by simp [hb] : ¬0 < lb.backupGroup.srvList.length)]
  rw [next_sel_eq, h1, h2]
  simpa using h3

theorem next_none_iff (lb : LoadBalancer) (now : Instant) (hwf : WF lb) :
    (lb.Next now).2.2 = none ↔
      ((lb.primaryGroup.srvList = [] ∧ lb.backupGroup.srvList = []) ∨
        ((∀ s ∈ lb.primaryGroup.srvList, s.isDown = true ∧ now ≤ s.failTimestamp) ∧
          lb.backupGroup.srvList = [])) := by
  constructor
  · intro hnone
    exact Or.inr (next_none_then lb now hwf hnone)
  · intro hr
    rcases hr with ⟨hp, hb⟩ | ⟨hall, hb⟩
    · exact next_none_of lb now hwf.1 (by simp [hp]) hb
    · exact next_none_of lb now hwf.1 hall hb

/-!
## Weighted round-robin burst behavior
-/

/-- When the cursor sits on an up server that still has weight budget and
some primary is online, Next selects exactly that server, only increments
the cursor weight, and raises no events. -/
theorem next_select_step (lb : LoadBalancer) (now : Instant) (srv : Server)
    (hget : lb.primaryGroup.srvList.get? lb.primaryGroup.currServerIdx = some srv)
    (hup : srv.isDown = false)
    (hcount : 0 < lb.primaryOnlineCount)
    (hw : lb.primaryGroup.currServerWeight < srv.opts.Weight) :
    lb.Next now =
      ({ lb with primaryGroup := { lb.primaryGroup with
          currServerWeight := lb.primaryGroup.currServerWeight + 1 } }, [],
        some ⟨false, lb.primaryGroup.currServerIdx⟩) := by
  have hns : lb.nextSweep now = (lb, []) := by
    unfold LoadBalancer.nextSweep
    rw [if_neg (by omega : ¬lb.primaryOnlineCount = 0)]
  have h1 : ¬(srv.isDown = true ∧ now > srv.failTimestamp) := by simp [hup]
  have hnp : lb.nextPrimary now =
      ({ lb with primaryGroup := { lb.primaryGroup with
          currServerWeight := lb.primaryGroup.currServerWeight + 1 } }, [],
        some ⟨false, lb.primaryGroup.currServerIdx⟩) := by
    unfold LoadBalancer.nextPrimary
    rw [if_pos hcount]
    have hfu : lb.primaryGroup.srvList.length + 2 =
        (lb.primaryGroup.srvList.length + 1) + 1 := rfl
    rw [hfu, primWalk_succ]
    simp only [primWalkBody, hget, if_neg h1]
    rw [if_pos (⟨hup, hw⟩ :
      srv.isDown = false ∧ lb.primaryGroup.currServerWeight < srv.opts.Weight)]
    simp
  unfold LoadBalancer.Next
  simp only [hns, hnp]
  simp

/-- Consecutive Next calls keep returning the server under the cursor until
its weight budget is exhausted. -/
theorem nextSelections_burst (now : Instant) :
    ∀ (k : Nat) (lb : LoadBalancer) (srv : Server),
      lb.primaryGroup.srvList.get? lb.primaryGroup.currServerIdx = some srv →
      srv.isDown = false →
      0 < lb.primaryOnlineCount →
      lb.primaryGroup.currServerWeight + k ≤ srv.opts.Weight →
      nextSelections now k lb =
        List.replicate k (some ⟨false, lb.primaryGroup.currServerIdx⟩) := by
  intro k
  induction k with
  | zero =>
    intro lb srv _ _ _ _
    rfl
  | succ n ih =>
    intro lb srv hget hup hcount hw
    have hstep := next_select_step lb now srv hget hup hcount (by omega)
    rw [List.replicate_succ]
    simp only [nextSelections, hstep]
    have hr := ih { lb with primaryGroup := { lb.primaryGroup with
        currServerWeight := lb.primaryGroup.currServerWeight + 1 } } srv
      (by simpa using hget) hup (by simpa using hcount)
      (by simp only; omega)
    simp only at hr
    simp [hr]

/-!
## Small access lemmas for SetOffline and the claim statements
-/

theorem getSrv_bumpCount (lb : LoadBalancer) (d : Int) (r : SRef) :
    (lb.bumpCount d).getSrv r = lb.getSrv r := rfl

theorem getSrv_setSrv (lb : LoadBalancer) (r : SRef) (s srv : Server)
    (hget : lb.getSrv r = some srv) : (lb.setSrv r s).getSrv r = some s := by
  unfold LoadBalancer.getSrv LoadBalancer.setSrv at *
  cases hrb : r.inBackup
  · rw [hrb] at hget
    simp only [Bool.false_eq_true, if_false] at hget ⊢
    exact List.get?_set_eq_of_lt _ (List.get?_eq_some.mp hget).1
  · rw [hrb] at hget
    simp only [if_true] at hget ⊢
    exact List.get?_set_eq_of_lt _ (List.get?_eq_some.mp hget).1

theorem setSrv_count (lb : LoadBalancer) (r : SRef) (s : Server) :
    (lb.setSrv r s).primaryOnlineCount = lb.primaryOnlineCount := by
  unfold LoadBalancer.setSrv
  split <;> rfl

theorem nextPrimary_length (lb1 : LoadBalancer) (now : Instant) :
    (lb1.nextPrimary now).1.primaryGroup.srvList.length =
      lb1.primaryGroup.srvList.length := by
  unfold LoadBalancer.nextPrimary
  by_cases hp : 0 < lb1.primaryOnlineCount
  · rw [if_pos hp]
    simpa using primWalk_length now (lb1.primaryGroup.srvList.length + 2)
      ⟨lb1.primaryGroup, lb1.primaryOnlineCount, []⟩
  · rw [if_neg hp]

theorem nextBackup_primary (lb2 : LoadBalancer) :
    lb2.nextBackup.1.primaryGroup = lb2.primaryGroup := by
  unfold LoadBalancer.nextBackup
  by_cases hb : 0 < lb2.backupGroup.srvList.length
  · rw [if_pos hb]
  · rw [if_neg hb]

theorem next_primary_length (lb : LoadBalancer) (now : Instant) :
    (lb.Next now).1.primaryGroup.srvList.length =
      lb.primaryGroup.srvList.length := by
  unfold LoadBalancer.Next
  cases hm : ((lb.nextSweep now).1.nextPrimary now).2.2 with
  | some r =>
    simp only [hm]
    rw [nextPrimary_length, (nextSweep_facts lb now).2.2]
  | none =>
    simp only [hm]
    rw [nextBackup_primary, nextPrimary_length, (nextSweep_facts lb now).2.2]

theorem range_map_const {α : Type} (c : α) (n : Nat) :
    (List.range n).map (fun _ => c) = List.replicate n c := by
  apply List.eq_replicate.mpr
  constructor
  · simp
  · intro b hb
    rcases List.mem_map.mp hb with ⟨a, _, hc⟩
    exact hc.symm

/-!
## Claim theorems
-/

/-- C1: with two primary servers A (weight 5) and B (weight 2), all online
and never failing, 14 consecutive Next calls each followed by SetOnline
return A,A,A,A,A,B,B,A,A,A,A,A,B,B; and in general a server of weight w
under the cursor is returned for w minus the spent budget consecutive Next
calls before the cursor advances, so weights are realised as bursts in
strict index order and each full cycle selects every server weight-many
times. -/
theorem c1_weighted_round_robin_burst :
    runNextSetOnline 0 14 lbAB =
      [some ⟨false, 0⟩, some ⟨false, 0⟩, some ⟨false, 0⟩, some ⟨false, 0⟩,
       some ⟨false, 0⟩, some ⟨false, 1⟩, some ⟨false, 1⟩,
       some ⟨false, 0⟩, some ⟨false, 0⟩, some ⟨false, 0⟩, some ⟨false, 0⟩,
       some ⟨false, 0⟩, some ⟨false, 1⟩, some ⟨false, 1⟩] ∧
    (∀ (now : Instant) (k : Nat) (lb : LoadBalancer) (srv : Server),
      lb.primaryGroup.srvList.get? lb.primaryGroup.currServerIdx = some srv →
      srv.isDown = false →
      0 < lb.primaryOnlineCount →
      lb.primaryGroup.currServerWeight + k ≤ srv.opts.Weight →
      nextSelections now k lb =
        List.replicate k (some ⟨false, lb.primaryGroup.currServerIdx⟩)) :=
  ⟨by decide,
   fun now k lb srv h1 h2 h3 h4 => nextSelections_burst now k lb srv h1 h2 h3 h4⟩

/-- Witness for C1: the burst part applied to the concrete two-server
balancer gives five consecutive selections of server A. -/
theorem c1_weighted_round_robin_burst_witness :
    nextSelections 0 5 lbAB = List.replicate 5 (some ⟨false, 0⟩) :=
  c1_weighted_round_robin_burst.2 0 5 lbAB
    ⟨⟨5, 3, 5, false⟩, 0, false, 0, 0, 1⟩
    (by decide) (by decide) (by decide) (by decide)

/-- C2 (code bug evidence): when the transport reports the parent context
cancelled during the first attempt and the callback sets the retry signal,
the retry loop performs a second Next call instead of returning at once;
the final error is still the canceled sentinel. The claim (and the safe
reading the spec chooses) demands no further Next call after cancellation. -/
theorem c2_cancel_retries_next_eval :
    (execLoop 0
      [⟨.canceled, false, true, .canceled⟩, ⟨.canceled, false, false, .canceled⟩]
      lbTwo 0).map (fun t => (t.1, t.2.1)) = some (some .errCanceled, 2) := by decide

/-- C3 counterexample: for an up primary server whose failure counter is 1
and whose window expired (failTimestamp 10, now 20, failTimeout 10),
SetOffline resets the counter to 1 but leaves failTimestamp at 10, whereas
the claim demands the window be re-anchored to now plus failTimeout, 30. -/
theorem c3_no_reanchor_counterexample :
    (lbC3.SetOffline 20 ⟨false, 0⟩).1.primaryGroup.srvList.map
      (fun s => (s.failCounter, s.failTimestamp, s.isDown)) =
      [((1 : Int), (10 : Int), false)] ∧
    ((20 : Int) + 10) ≠ 10 := by decide

/-- C3 (amended): for an up primary server with positive maxFails and
counter below maxFails, SetOffline increments the counter; a first failure
anchors the window at now plus failTimeout; a later failure past the window
resets the counter to 1 while leaving failTimestamp unchanged; and when the
resulting counter equals maxFails the server goes down with re-admit time
now plus failTimeout, the online count drops by one and a down event is
raised, otherwise the count is unchanged and no event is raised. -/
theorem c3_setOffline_amended (lb : LoadBalancer) (now : Instant) (r : SRef) (srv : Server)
    (hget : lb.getSrv r = some srv)
    (hmf : 0 < srv.opts.MaxFails)
    (hnb : srv.opts.IsBackup = false)
    (hup : srv.isDown = false)
    (hlt : srv.failCounter < srv.opts.MaxFails) :
    if (if srv.failCounter + 1 = 1 then srv.failCounter + 1
        else if now > srv.failTimestamp then 1 else srv.failCounter + 1) =
        srv.opts.MaxFails then
      (lb.SetOffline now r).1.getSrv r = some { srv with
          isDown := true,
          failCounter := if srv.failCounter + 1 = 1 then srv.failCounter + 1
            else if now > srv.failTimestamp then 1 else srv.failCounter + 1,
          failTimestamp := now + srv.opts.FailTimeout } ∧
      (lb.SetOffline now r).1.primaryOnlineCount = lb.primaryOnlineCount - 1 ∧
      (lb.SetOffline now r).2 = [Event.down r]
    else
      (lb.SetOffline now r).1.getSrv r = some { srv with
          failCounter := if srv.failCounter + 1 = 1 then srv.failCounter + 1
            else if now > srv.failTimestamp then 1 else srv.failCounter + 1,
          failTimestamp := if srv.failCounter + 1 = 1 then now + srv.opts.FailTimeout
            else srv.failTimestamp } ∧
      (lb.SetOffline now r).1.primaryOnlineCount = lb.primaryOnlineCount ∧
      (lb.SetOffline now r).2 = [] := by
  have hguard : ¬(srv.opts.MaxFails = 0 ∨ srv.opts.IsBackup = true) := by
    rw [hnb]
    simp
    omega
  have hact : srv.isDown = false ∧ srv.failCounter < srv.opts.MaxFails := ⟨hup, hlt⟩
  simp only [LoadBalancer.SetOffline, hget, if_neg hguard, if_pos hact]
  by_cases hfc : srv.failCounter + 1 = 1
  · simp only [if_pos hfc]
    by_cases hm : srv.failCounter + 1 = srv.opts.MaxFails
    · simp only [if_pos hm]
      refine ⟨?_, ?_, trivial⟩
      · rw [getSrv_bumpCount]
        exact getSrv_setSrv _ _ _ _ hget
      · simp only [LoadBalancer.bumpCount, setSrv_count]
        omega
    · simp only [if_neg hm]
      refine ⟨?_, ?_, trivial⟩
      · exact getSrv_setSrv _ _ _ _ hget
      · exact setSrv_count _ _ _
  · simp only [if_neg hfc]
    by_cases hts : now > srv.failTimestamp
    · simp only [if_pos hts]
      by_cases hm : (1 : Int) = srv.opts.MaxFails
      · simp only [if_pos hm]
        refine ⟨?_, ?_, trivial⟩
        · rw [getSrv_bumpCount]
          exact getSrv_setSrv _ _ _ _ hget
        · simp only [LoadBalancer.bumpCount, setSrv_count]
          omega
      · simp only [if_neg hm]
        refine ⟨?_, ?_, trivial⟩
        · exact getSrv_setSrv _ _ _ _ hget
        · exact setSrv_count _ _ _
    · simp only [if_neg hts]
      by_cases hm : srv.failCounter + 1 = srv.opts.MaxFails
      · simp only [if_pos hm]
        refine ⟨?_, ?_, trivial⟩
        · rw [getSrv_bumpCount]
          exact getSrv_setSrv _ _ _ _ hget
        · simp only [LoadBalancer.bumpCount, setSrv_count]
          omega
      · simp only [if_neg hm]
        refine ⟨?_, ?_, trivial⟩
        · exact getSrv_setSrv _ _ _ _ hget
        · exact setSrv_count _ _ _

/-- Witness for C3: the amended description applied to the concrete
expired-window state: the counter resets to 1 and the timestamp stays 10. -/
theorem c3_setOffline_amended_witness :
    (lbC3.SetOffline 20 ⟨false, 0⟩).1.getSrv ⟨false, 0⟩ =
      some ⟨⟨1, 3, 10, false⟩, 0, false, 1, 10, 1⟩ ∧
    (lbC3.SetOffline 20 ⟨false, 0⟩).1.primaryOnlineCount = 1 ∧
    (lbC3.SetOffline 20 ⟨false, 0⟩).2 = [] := by
  have h := c3_setOffline_amended lbC3 20 ⟨false, 0⟩
    ⟨⟨1, 3, 10, false⟩, 0, false, 1, 10, 1⟩
    (by decide) (by decide) (by decide) (by decide) (by decide)
  simpa using h

/-- C4: after any finite sequence of Add, Next, SetOnline and SetOffline
operations starting from Create, primaryOnlineCount equals the number of
servers in the primary group whose isDown flag is false. -/
theorem c4_primaryOnlineCount_invariant (ops : List Op) :
    (applyOps LoadBalancer.Create ops).primaryOnlineCount =
      onlineCountOf (applyOps LoadBalancer.Create ops).primaryGroup.srvList :=
  (phi_applyOps LoadBalancer.Create ops phi_Create).1

/-- Witness for C4: a concrete sequence that adds two servers, selects one
and fails it to the maxFails limit. -/
theorem c4_primaryOnlineCount_invariant_witness :
    (applyOps LoadBalancer.Create
      [.add ⟨1, 1, 10, false⟩ 1, .add ⟨2, 3, 10, false⟩ 2, .next 0,
        .setOffline 0 ⟨false, 0⟩, .next 1]).primaryOnlineCount =
      onlineCountOf (applyOps LoadBalancer.Create
        [.add ⟨1, 1, 10, false⟩ 1, .add ⟨2, 3, 10, false⟩ 2, .next 0,
          .setOffline 0 ⟨false, 0⟩, .next 1]).primaryGroup.srvList :=
  c4_primaryOnlineCount_invariant _

/-- C5: on a well-formed balancer, Next returns nil exactly when both
groups are empty, or every primary server is down with a failTimestamp that
has not yet passed at the observed now and the backup group is empty. -/
theorem c5_next_nil_iff (lb : LoadBalancer) (now : Instant) (hwf : WF lb) :
    (lb.Next now).2.2 = none ↔
      ((lb.primaryGroup.srvList = [] ∧ lb.backupGroup.srvList = []) ∨
        ((∀ s ∈ lb.primaryGroup.srvList, s.isDown = true ∧ now ≤ s.failTimestamp) ∧
          lb.backupGroup.srvList = [])) :=
  next_none_iff lb now hwf

/-- Witness for C5: a single down primary inside its window yields nil. -/
theorem c5_next_nil_iff_witness : (lbDown.Next 50).2.2 = none :=
  (c5_next_nil_iff lbDown 50 (by decide)).mpr (Or.inr ⟨by decide, by decide⟩)

/-- C6 counterexample: on a balancer with no primaries the WaitNext task
sends the nil server value on the channel and then closes it; the claimed
behavior, closing without ever sending, would be the event list holding
only the close. -/
theorem c6_waitnext_sends_nil_counterexample :
    waitNextTask 1 0 LoadBalancer.Create = some [.send none, .close] ∧
    (some [ChanEvent.send none, ChanEvent.close] : Option (List ChanEvent)) ≠
      some [ChanEvent.close] := by decide

/-- C6 (amended): when the primary list is empty and Next returns nil, the
WaitNext task exits its loop and sends nil on the channel before closing
it, so a receiver observes a nil server value rather than a closed-empty
receive; when Next yields a server, exactly that server is sent and the
channel is then closed. -/
theorem c6_waitnext_amended (lb : LoadBalancer) (now : Instant) (fuel : Nat) :
    (lb.primaryGroup.srvList = [] → (lb.Next now).2.2 = none →
      waitNextTask (fuel + 1) now lb = some [.send none, .close]) ∧
    (∀ s, (lb.Next now).2.2 = some s →
      waitNextTask (fuel + 1) now lb = some [.send (some s), .close]) := by
  constructor
  · intro hpe hnone
    have hlen : (lb.Next now).1.primaryGroup.srvList.length = 0 := by
      rw [next_primary_length]
      simp [hpe]
    simp only [waitNextTask, hnone, hlen]
    simp
  · intro s hs
    simp only [waitNextTask, hs]

/-- Witness for C6: with one healthy primary the task sends that server. -/
theorem c6_waitnext_amended_witness :
    waitNextTask 1 0 lbOne = some [.send (some ⟨false, 0⟩), .close] :=
  (c6_waitnext_amended lbOne 0 0).2 ⟨false, 0⟩ (by decide)

/-- C7 counterexample: when the transport reports the child deadline
exceeded, the attempt error is the timeout sentinel but the balancer state
is untouched before the callback, while an actual SetOffline call would
have changed it; so the claim that the server is marked offline on a
deadline excess fails. -/
theorem c7_deadline_no_offline_counterexample :
    (execAttemptPre 0 lbOne ⟨false, 0⟩ .deadlineExceeded).1 = lbOne ∧
    (lbOne.SetOffline 0 ⟨false, 0⟩).1 ≠ lbOne ∧
    (execAttemptPre 0 lbOne ⟨false, 0⟩ .deadlineExceeded).2 = some .errTimeout := by
  decide

/-- C7 (amended): a child-deadline excess maps to the timeout sentinel with
no SetOffline call before the callback, while a network error with the
timeout flag maps to the timeout sentinel with SetOffline applied before
the callback runs. -/
theorem c7_timeout_classification_amended (now : Instant) (lb : LoadBalancer)
    (srv : SRef) :
    execAttemptPre now lb srv .deadlineExceeded = (lb, some .errTimeout) ∧
    execAttemptPre now lb srv .netTimeout =
      ((lb.SetOffline now srv).1, some .errTimeout) := by
  constructor <;> rfl

/-- Witness for C7: the amended classification at a concrete state. -/
theorem c7_timeout_classification_amended_witness :
    execAttemptPre 0 lbOne ⟨false, 0⟩ .netTimeout =
      ((lbOne.SetOffline 0 ⟨false, 0⟩).1, some .errTimeout) :=
  (c7_timeout_classification_amended 0 lbOne ⟨false, 0⟩).2

/-- C8: the dispatcher accepts as body only the absent body, a bytes
buffer, a bytes reader or a strings reader; any other reader is rejected
with the unsupported-body-reader error before the balancer is contacted
(zero Next calls, state untouched); and for every accepted body the getter
hands every iteration the same fresh reader, whose full read equals the
bytes the body held when Exec started. -/
theorem c8_body_replay :
    (∀ (d : List Nat) (o : Nat),
      setupGetBody (.otherReader d o) = .error "unsupported body reader") ∧
    (∀ (req : Request) (script : List Attempt) (now : Instant) (lb : LoadBalancer)
        (d : List Nat) (o : Nat),
      req.body = .otherReader d o →
      requestValidate req = none →
      requestExec now req script lb =
        some (some (.structured "unsupported body reader"), 0, lb)) ∧
    (∀ b : BodyReader, (∀ d o, b ≠ .otherReader d o) →
      ∃ g, setupGetBody b = .ok g ∧
        (∀ n, readersUsed g n = List.replicate n (g 0)) ∧
        (∀ i r, g i = some r → r.readAll = bodyBytes b)) := by
  refine ⟨fun d o => rfl, ?_, ?_⟩
  · intro req script now lb d o hbody hval
    simp only [requestExec, hval, hbody, setupGetBody]
  · intro b hb
    cases b with
    | noBody =>
      refine ⟨_, rfl, fun n => range_map_const _ n, ?_⟩
      intro i r h
      exact Option.noConfusion h
    | bytesBuffer unread =>
      refine ⟨_, rfl, fun n => range_map_const _ n, ?_⟩
      intro i r h
      injection h with h2
      rw [← h2]
      rfl
    | bytesReader data off =>
      refine ⟨_, rfl, fun n => range_map_const _ n, ?_⟩
      intro i r h
      injection h with h2
      rw [← h2]
      rfl
    | stringsReader data off =>
      refine ⟨_, rfl, fun n => range_map_const _ n, ?_⟩
      intro i r h
      injection h with h2
      rw [← h2]
      rfl
    | otherReader d o => exact absurd rfl (hb d o)

/-- Witness for C8: a one-shot stream is rejected before any Next call. -/
theorem c8_body_replay_witness :
    setupGetBody (BodyReader.otherReader [7] 0) =
      .error "unsupported body reader" ∧
    requestExec 0 ⟨"POST", "/bodytest", 1, true, .otherReader [7] 0⟩ []
      LoadBalancer.Create =
      some (some (.structured "unsupported body reader"), 0, LoadBalancer.Create) :=
  ⟨c8_body_replay.1 [7] 0,
   c8_body_replay.2.1 ⟨"POST", "/bodytest", 1, true, .otherReader [7] 0⟩ [] 0
     LoadBalancer.Create [7] 0 rfl (by decide)⟩

/-- C9 counterexample: a request with timeout zero passes validation (the
code only rejects a negative timeout) and the retry loop runs, performing a
Next call, while the claim demands a synchronous validation error for every
non-positive timeout. -/
theorem c9_zero_timeout_counterexample :
    requestValidate ⟨"GET", "/x", 0, true, .noBody⟩ = none ∧
    (requestExec 0 ⟨"GET", "/x", 0, true, .noBody⟩ [⟨.ok, false, false, .noErr⟩]
      LoadBalancer.Create).map (fun t => (t.1, t.2.1)) =
      some (some (.structured errNoAvailableServer), 1) := by decide

/-- C9 (amended): Exec validation passes exactly when the method and the
resource are non-empty, the timeout is non-negative, and the callback is
set; when a check fails, the error is returned synchronously with no Next
call and the balancer state untouched. -/
theorem c9_validation_amended :
    (∀ req : Request, requestValidate req = none ↔
      (req.method.length ≠ 0 ∧ req.url.length ≠ 0 ∧ 0 ≤ req.timeout ∧
        req.hasCallback = true)) ∧
    (∀ (req : Request) (msg : String) (now : Instant) (script : List Attempt)
        (lb : LoadBalancer),
      requestValidate req = some msg →
      requestExec now req script lb = some (some (.structured msg), 0, lb)) := by
  constructor
  · intro req
    constructor
    · intro h
      unfold requestValidate at h
      split_ifs at h with h1 h2 h3 h4
      refine ⟨h1, h2, by omega, ?_⟩
      cases hcb : req.hasCallback
      · exact absurd hcb h4
      · rfl
    · rintro ⟨h1, h2, h3, h4⟩
      unfold requestValidate
      rw [if_neg h1, if_neg h2, if_neg (by omega : ¬req.timeout < 0),
        if_neg (by simp [h4] : ¬req.hasCallback = false)]
  · intro req msg now script lb hval
    simp only [requestExec, hval]

/-- Witness for C9: an empty method is rejected synchronously. -/
theorem c9_validation_amended_witness :
    requestExec 0 ⟨"", "/x", 1, true, .noBody⟩ [] LoadBalancer.Create =
      some (some (.structured "invalid method"), 0, LoadBalancer.Create) :=
  c9_validation_amended.2 ⟨"", "/x", 1, true, .noBody⟩ "invalid method" 0 []
    LoadBalancer.Create (by decide)

/-- C10 (code bug evidence): Create assigns nil to the package global
io.ErrClosedPipe (src/loadbalancer.go line 36), so a non-nil value held by
the global before the call is clobbered, while the balancer value built is
the fresh empty one; the claim that Create leaves every package global
unchanged fails on this assignment. -/
theorem c10_create_clobbers_global_eval :
    (CreateWithGlobals ⟨some "io: read or write on closed pipe"⟩).1.ioErrClosedPipe =
      none ∧
    (some "io: read or write on closed pipe" : Option String) ≠ none ∧
    (CreateWithGlobals ⟨some "io: read or write on closed pipe"⟩).2 =
      LoadBalancer.Create := by
  refine ⟨rfl, by simp, rfl⟩
